import Mathlib

/-!
Shallow embedding of the arbitrum-vibekit NFT tooling core:
the resilient fetch client of the read-only OpenSea MCP server
(`src/typescript/lib/mcp-tools/opensea-mcp-server/src/mcp.ts`), the
NFT plugin registry (`onchain-actions-plugins/nft`), and the Magic Eden
stub plugin (`onchain-actions-plugins/magiceden/src/index.ts`).

Strings thrown around by the JavaScript code are modelled as Lean
`String`s, JavaScript `Map` / `URLSearchParams` as association lists with
set-in-place-or-append semantics, and the asynchronous HTTP world as
explicit oracles (functions from the request data to the simulated
response).
-/

namespace VibekitNft

/-- Lower-case a character list (model of JavaScript `toLowerCase` /
a case-insensitive regex test on a message). -/
def lowerList (l : List Char) : List Char := l.map Char.toLower

/-- Does the character list start with the given literal pattern? -/
def begWith : List Char → List Char → Bool
  | [], _ => true
  | _ :: _, [] => false
  | p :: ps, c :: cs => p == c && begWith ps cs

/-- Does the literal pattern occur contiguously anywhere in the list? -/
def containsSub (pat : List Char) : List Char → Bool
  | [] => begWith pat []
  | c :: cs => begWith pat (c :: cs) || containsSub pat cs

/-- Does the list start with the regex fragment `5` followed by two digits
(the `5dd` alternative of the classifier's regex)? -/
def begFiveDD : List Char → Bool
  | c1 :: c2 :: c3 :: _ => c1 == '5' && c2.isDigit && c3.isDigit
  | _ => false

/-- Does `5` followed by two digits occur anywhere in the list? -/
def hasFiveDD : List Char → Bool
  | [] => false
  | c :: cs => begFiveDD (c :: cs) || hasFiveDD cs

/-- A thrown JavaScript value as the failure classifier sees it: an
`Error` instance carrying a message, or any non-`Error` value. -/
inductive JsThrown where
  | error (msg : String)
  | nonError
deriving DecidableEq, Repr

/-- Test of the regex `429|5dd|rate|timeout|network` with the `i` flag
on a message (mcp.ts line 16). -/
def transientMessage (msg : String) : Bool :=
  let l := lowerList msg.toList
  containsSub ("429".toList) l || hasFiveDD l ||
    containsSub ("rate".toList) l || containsSub ("timeout".toList) l ||
    containsSub ("network".toList) l

/-- mcp.ts `isRateLimitOrTransient`: a non-`Error` value is never
transient; an `Error` is transient exactly when its message matches the
regex `429|5dd|rate|timeout|network` case-insensitively. -/
def isRateLimitOrTransient : JsThrown → Bool
  | .nonError => false
  | .error msg => transientMessage msg

/-- `message` of a thrown value once it is treated as an `Error`
(the non-`Error` case is only ever wrapped, its message is irrelevant). -/
def jsMessage : JsThrown → String
  | .error m => m
  | .nonError => ""

/-- The rate-limit triple extracted from response headers (mcp.ts
`RateLimitInfo`). -/
structure RateLimitInfo where
  limit : Option String
  remaining : Option String
  reset : Option String
deriving DecidableEq, Repr

/-- `Headers.get`: case-insensitive lookup of the first header carrying
the requested name. -/
def headersGet (hs : List (String × String)) (nm : String) : Option String :=
  match hs with
  | [] => none
  | (k, v) :: rest =>
    if lowerList k.toList = lowerList nm.toList then some v else headersGet rest nm

/-- mcp.ts `extractRateLimit`: read the three `x-ratelimit-*` headers,
each `null` (here `none`) when absent. -/
def extractRateLimit (hs : List (String × String)) : RateLimitInfo :=
  { limit := headersGet hs "x-ratelimit-limit"
  , remaining := headersGet hs "x-ratelimit-remaining"
  , reset := headersGet hs "x-ratelimit-reset" }

/-- One scripted behaviour of the underlying `fetch` call: either an HTTP
response (status, body text, headers, decoded payload for the `json()`
call), or a rejection with a thrown value (network-level failure). -/
inductive SimAttempt (δ : Type) where
  | response (status : Nat) (body : String) (headers : List (String × String)) (payload : δ)
  | thrown (e : JsThrown)

/-- mcp.ts `FetchResult`: the decoded payload plus the rate-limit triple. -/
structure FetchResult (δ : Type) where
  data : δ
  rateLimit : RateLimitInfo
deriving DecidableEq, Repr

/-- The error message mcp.ts builds for a non-success response
(line 53): `OpenSea API error status: body`. -/
def apiErrorMsg (status : Nat) (body : String) : String :=
  "OpenSea API error " ++ toString status ++ ": " ++ body

/-- `res.ok` of the fetch API: the status lies in 200..299. -/
def resOk (status : Nat) : Bool := 200 ≤ status && status < 300

/-- What one execution of the retried closure in `osFetch` produces:
a successful fetch result, a plain rethrown error (p-retry will retry),
or an `AbortError` (p-retry aborts at once). -/
inductive AttemptOutcome (δ : Type) where
  | success (r : FetchResult δ)
  | retryable (msg : String)
  | aborted (msg : String)
deriving DecidableEq, Repr

/-- One execution of the closure passed to `pRetry` in `osFetch`
(mcp.ts lines 43-67): on `res.ok`, return data plus rate-limit headers;
on a non-success status build the error, throw it plainly for 429/≥500
and as `AbortError` otherwise; the surrounding catch re-throws plainly
exactly the errors `isRateLimitOrTransient` accepts and wraps the rest
in `AbortError`.  (Re-throwing an `AbortError` aborts either way, so the
429/≥500 branch stays retryable only when the message matches.) -/
def osAttempt {δ : Type} : SimAttempt δ → AttemptOutcome δ
  | .response status body headers payload =>
    if resOk status then .success ⟨payload, extractRateLimit headers⟩
    else
      if status = 429 ∨ 500 ≤ status then
        if isRateLimitOrTransient (.error (apiErrorMsg status body)) then
          .retryable (apiErrorMsg status body)
        else .aborted (apiErrorMsg status body)
      else .aborted (apiErrorMsg status body)
  | .thrown e =>
    if isRateLimitOrTransient e then .retryable (jsMessage e) else .aborted (jsMessage e)

/-- Overall outcome of `osFetch`: the resolved fetch result, the final
failure (the last attempt's error), or the marker that the simulation
script ended before the client stopped. -/
inductive FetchOutcome (δ : Type) where
  | ok (r : FetchResult δ)
  | failed (msg : String)
  | outOfScript
deriving DecidableEq, Repr

/-- The p-retry loop over a scripted list of attempt behaviours with the
given remaining-retries budget: a plain error consumes one retry and
runs again, an `AbortError` fails at once, and an exhausted budget fails
with the last attempt's error.  Returns how many HTTP requests were
issued together with the outcome. -/
def pRetryRun {δ : Type} : List (SimAttempt δ) → Nat → Nat × FetchOutcome δ
  | [], _ => (0, .outOfScript)
  | a :: rest, retriesLeft =>
    match osAttempt a with
    | .success r => (1, .ok r)
    | .aborted msg => (1, .failed msg)
    | .retryable msg =>
      match retriesLeft with
      | 0 => (1, .failed msg)
      | n + 1 => ((pRetryRun rest n).1 + 1, (pRetryRun rest n).2)

/-- `osFetch`'s retry loop: `RETRY_CONFIG` plus `retries: 4`
(mcp.ts lines 12 and 71), i.e. at most 5 requests in total. -/
def osFetchRun {δ : Type} (script : List (SimAttempt δ)) : Nat × FetchOutcome δ :=
  pRetryRun script 4

/-- A value of the `searchParams` record passed to `osFetch`:
a string, a number, or the absent/undefined value. -/
inductive QueryValue where
  | str (s : String)
  | num (n : Int)
  | undef
deriving DecidableEq, Repr

/-- JavaScript `String(v)` on a defined query value; `none` for the
undefined value, which the loop in `osFetch` skips. -/
def qString : QueryValue → Option String
  | .str s => some s
  | .num n => some (toString n)
  | .undef => none

/-- Set-semantics shared by `URLSearchParams.set` and `Map.set`:
replace the value in place when the key is present, append otherwise. -/
def mapSet {β : Type} : List (String × β) → String → β → List (String × β)
  | [], k, v => [(k, v)]
  | (k', v') :: rest, k, v =>
    if k' = k then (k, v) :: rest else (k', v') :: mapSet rest k v

/-- Lookup of the first entry with the given key (`Map.get`,
`URLSearchParams.get`). -/
def mapGet {β : Type} : List (String × β) → String → Option β
  | [], _ => none
  | (k', v') :: rest, k => if k' = k then some v' else mapGet rest k

/-- The keys of an association list. -/
def mapKeys {β : Type} (m : List (String × β)) : List String := m.map Prod.fst

/-- One iteration of the query-building loop of `osFetch`
(mcp.ts lines 38-40): `url.searchParams.set(k, String(v))` when the
value is defined, otherwise skip the entry. -/
def buildQueryStep (acc : List (String × String)) (kv : String × QueryValue) :
    List (String × String) :=
  match qString kv.2 with
  | some s => mapSet acc kv.1 s
  | none => acc

/-- The query-building loop of `osFetch` (mcp.ts lines 37-41), starting
from the empty query of the freshly built URL. -/
def buildQuery (params : List (String × QueryValue)) : List (String × String) :=
  params.foldl buildQueryStep []

/-- A plugin as stored in the registry: its string id together with the
implementation object (abstract here, the registry never inspects it). -/
structure NftPluginEntry (π : Type) where
  id : String
  impl : π
deriving DecidableEq, Repr

/-- The backing `Map<string, NftPlugin>` of the registry, as an
insertion-ordered association list. -/
def RegistryState (π : Type) : Type := List (String × NftPluginEntry π)

/-- `registerNftPlugin` (nft plugin core): `registry.set(plugin.id, plugin)`. -/
def registerNftPlugin {π : Type} (reg : RegistryState π) (p : NftPluginEntry π) :
    RegistryState π :=
  mapSet reg p.id p

/-- `getNftPlugin`: `registry.get(id)`. -/
def getNftPlugin {π : Type} (reg : RegistryState π) (i : String) :
    Option (NftPluginEntry π) :=
  mapGet reg i

/-- A registry reached by a sequence of registrations from the empty map
(the module-level `new Map()`). -/
def buildRegistry {π : Type} (ps : List (NftPluginEntry π)) : RegistryState π :=
  ps.foldl registerNftPlugin []

/-- A `tokenId` argument before normalization: the zod schema accepts a
string or a number. -/
inductive TokenIdValue where
  | str (s : String)
  | num (n : Int)
deriving DecidableEq, Repr

/-- JavaScript `String(tokenId)`. -/
def tokenIdString : TokenIdValue → String
  | .str s => s
  | .num n => toString n

/-- `GetAssetParams` of the NFT plugin interface (also serving as
`GetListingsParams` and `GetOffersParams`, which equal it). -/
structure GetAssetParams where
  contractAddress : String
  tokenId : TokenIdValue
  chainId : Int
deriving DecidableEq, Repr

/-- The `tokenStandard` enum of `NftPrimitive`. -/
inductive TokenStandard where
  | ERC721
  | ERC1155
deriving DecidableEq, Repr

/-- The canonical asset representation `NftPrimitive` of the NFT plugin
core; optional fields default to absent. -/
structure NftPrimitive where
  contractAddress : String
  tokenId : String
  tokenStandard : TokenStandard
  owner : Option String := none
  nftName : Option String := none
  description : Option String := none
  image : Option String := none
  isListed : Option Bool := none
  currentPrice : Option String := none
  collectionSlug : Option String := none
  collectionName : Option String := none
  collectionVerified : Option Bool := none
  chainId : Int
deriving DecidableEq, Repr

/-- `MagicEdenPlugin.getAsset` (magiceden/src/index.ts lines 22-29):
no network call, returns a primitive echoing the inputs with
`tokenStandard: 'ERC721'` and every optional field absent. -/
def magicEdenGetAsset (p : GetAssetParams) : NftPrimitive :=
  { contractAddress := p.contractAddress
  , tokenId := tokenIdString p.tokenId
  , tokenStandard := .ERC721
  , chainId := p.chainId }

/-- `MagicEdenPlugin.getListings`: always the empty array. -/
def magicEdenGetListings {α : Type} (_p : GetAssetParams) : List α := []

/-- `MagicEdenPlugin.getOffers`: always the empty array. -/
def magicEdenGetOffers {α : Type} (_p : GetAssetParams) : List α := []

/-- The fields of a decoded JSON payload that the read-tool handlers
inspect: `next` / `next_cursor` for pagination, `orders` when the payload
carries an order array, and the rest of the payload left opaque. -/
structure JsonData (α : Type) where
  next : Option String := none
  next_cursor : Option String := none
  orders : Option (List α) := none
  rest : α
deriving DecidableEq, Repr

/-- The handlers' cursor extraction `data?.next ?? data?.next_cursor ?? null`. -/
def dataNext {α : Type} (d : JsonData α) : Option String :=
  d.next.orElse fun _ => d.next_cursor

/-- The `{rateLimit, nextCursor, data}` success envelope serialized by the
read tools. -/
structure Envelope (α : Type) where
  rateLimit : RateLimitInfo
  nextCursor : Option String
  data : JsonData α
deriving DecidableEq, Repr

/-- A raw tool-argument value as the `z.unknown()` alias fields of
`GetWalletNftsSchemaRaw` see it: absent, a string, or a value of some
other type. -/
inductive ArgValue where
  | absent
  | str (s : String)
  | other
deriving DecidableEq, Repr

/-- The raw arguments of `get_wallet_nfts` (after the outer display-shape
check, `cursor` is a string or absent). -/
structure WalletArgs where
  address : ArgValue := .absent
  wallet : ArgValue := .absent
  wallet_address : ArgValue := .absent
  walletAddress : ArgValue := .absent
  owner : ArgValue := .absent
  account : ArgValue := .absent
  cursor : Option String := none
deriving DecidableEq, Repr

/-- JavaScript `v.trim()`, modelled on the character list: drop leading
and trailing whitespace. -/
def trimChars (l : List Char) : List Char :=
  ((l.dropWhile Char.isWhitespace).reverse.dropWhile Char.isWhitespace).reverse

/-- JavaScript `v.trim().toLowerCase()`. -/
def jsNormalize (s : String) : String := (lowerList (trimChars s.toList)).asString

/-- The candidate-mapping step of the wallet-args transform:
`typeof v === 'string' ? v.trim().toLowerCase() : ''`. -/
def candNormalize : ArgValue → String
  | .str s => jsNormalize s
  | _ => ""

/-- `Array.prototype.find(v => v.length > 0)`. -/
def firstNonempty : List String → Option String
  | [] => none
  | s :: rest => if s.length > 0 then some s else firstNonempty rest

/-- The built-in fallback wallet (`DEFAULT_ARBITRUM_WALLET` unset,
mcp.ts lines 85 and 122). -/
def DEFAULT_WALLET : String := "0xc9d7a0d7136277a4b1ffda1cadb0f1f114865af1"

/-- The transform of `GetWalletNftsSchemaRaw` (mcp.ts lines 118-124):
first non-empty normalized alias, else the default wallet. -/
def resolveWalletAddress (a : WalletArgs) : String :=
  (firstNonempty
      (([a.address, a.wallet, a.wallet_address, a.walletAddress, a.owner,
        a.account]).map candNormalize)).getD
    DEFAULT_WALLET

/-- One character of the class `[a-f0-9]` under the regex `i` flag. -/
def isHexDigitChar (c : Char) : Bool :=
  c.isDigit || ('a' ≤ c && c ≤ 'f') || ('A' ≤ c && c ≤ 'F')

/-- The address pattern `0x` followed by exactly 40 hex characters
(`/^0x[a-f0-9]{40}$/i`). -/
def isValidAddress (s : String) : Bool :=
  match s.toList with
  | '0' :: c :: rest => (c == 'x' || c == 'X') && rest.length == 40 && rest.all isHexDigitChar
  | _ => false

/-- Success of `GetWalletNftsSchemaRaw.safeParse`: the `superRefine`
accepts the resolved address (the alias fields are `z.unknown()`, so
nothing else can fail once `cursor` has the right type). -/
def walletParseOk (a : WalletArgs) : Bool := isValidAddress (resolveWalletAddress a)

/-- The HTTP request the `get_wallet_nfts` handler issues: the wallet
address baked into the path, plus the built query string. -/
structure WalletFetchReq where
  address : String
  query : List (String × String)
deriving DecidableEq, Repr

/-- The `get_wallet_nfts` handler (mcp.ts lines 143-150): on parse
failure fall back to the default wallet and drop the cursor, then always
call `osFetch` and wrap the result in the `{rateLimit, nextCursor, data}`
envelope.  The oracle `http` stands for a resolved `osFetch`; the issued
request is returned alongside the envelope. -/
def get_wallet_nfts {α : Type} (http : WalletFetchReq → FetchResult (JsonData α))
    (a : WalletArgs) : WalletFetchReq × Envelope α :=
  let addr := if walletParseOk a then resolveWalletAddress a else DEFAULT_WALLET
  let cur := if walletParseOk a then a.cursor else none
  let req : WalletFetchReq :=
    ⟨addr, buildQuery [("cursor", match cur with | some c => .str c | none => .undef)]⟩
  let r := http req
  (req, ⟨r.rateLimit, dataNext r.data, r.data⟩)

/-- The `{rateLimit, data}` envelope of `get_collection` (no cursor key). -/
structure CollectionEnvelope (α : Type) where
  rateLimit : RateLimitInfo
  data : JsonData α
deriving DecidableEq, Repr

/-- The `get_collection` handler (mcp.ts lines 181-186) on its success
path, with the slug already resolved (parse failure substitutes the
default slug, a network call is made either way). -/
def get_collection {α : Type} (http : String → FetchResult (JsonData α))
    (slug : String) : CollectionEnvelope α :=
  let r := http slug
  ⟨r.rateLimit, r.data⟩

/-- The list entry shape `list_arbitrum_collections` filters on: the
`chain` field of each contract of a collection, the rest opaque. -/
structure CollectionInfo (β : Type) where
  contractChains : List String
  info : β
deriving DecidableEq, Repr

/-- The payload of `/api/v2/collections`. -/
structure CollectionsData (β : Type) where
  next : Option String := none
  collections : List (CollectionInfo β)
deriving DecidableEq, Repr

/-- The `{rateLimit, nextCursor, data}` envelope of
`list_arbitrum_collections`. -/
structure CollectionsEnvelope (β : Type) where
  rateLimit : RateLimitInfo
  nextCursor : Option String
  data : CollectionsData β
deriving DecidableEq, Repr

/-- The `list_arbitrum_collections` handler (mcp.ts lines 200-215):
query with `limit` (and `next` when a cursor was given), keep only the
collections having a contract on the `arbitrum` chain. -/
def list_arbitrum_collections {β : Type}
    (http : List (String × String) → FetchResult (CollectionsData β))
    (limit : Int) (cursor : Option String) : CollectionsEnvelope β :=
  let params := ("limit", toString limit) ::
    (match cursor with | some c => [("next", c)] | none => [])
  let r := http params
  ⟨r.rateLimit, r.data.next,
    { r.data with
      collections := r.data.collections.filter fun c =>
        c.contractChains.any fun ch => ch == "arbitrum" }⟩

/-- A `some`/`none` optional query entry (`if (x !== undefined) params[k] = x`). -/
def optEntry (k : String) : Option String → List (String × String)
  | some v => [(k, v)]
  | none => []

/-- The collection-scoped listings/offers query the handlers build:
`{collection_slug}` plus optional `limit` and `next`. -/
def collectionQuery (slug : String) (limit : Option Int) (cursor : Option String) :
    List (String × String) :=
  ("collection_slug", slug) :: (optEntry "limit" (limit.map toString) ++ optEntry "next" cursor)

/-- The asset-scoped listings/offers query:
`{asset_contract_address, token_ids}` plus optional `limit` and `next`. -/
def assetQuery (ca tid : String) (limit : Option Int) (cursor : Option String) :
    List (String × String) :=
  ("asset_contract_address", ca) :: ("token_ids", tid) ::
    (optEntry "limit" (limit.map toString) ++ optEntry "next" cursor)

/-- JavaScript truthiness of the optional `collection_slug` string. -/
def slugTruthy : Option String → Bool
  | some s => s.length > 0
  | none => false

/-- `Array.isArray(orders) && orders.length === 0` on the optional
`orders` field of a payload. -/
def ordersEmpty {α : Type} : Option (List α) → Bool
  | some [] => true
  | _ => false

/-- The collaborators of `get_listings_by_asset` / `get_offers_by_asset`:
whether the dynamic import succeeded and `getNftPlugin('opensea')`
returned a plugin; the plugin's order query (`none` models a thrown
exception, swallowed by the handler); and the resolved `osFetch` on the
tool's orders endpoint, keyed by the query string. -/
structure AssetEnv (α : Type) where
  pluginResolved : Bool
  pluginOrders : GetAssetParams → Option (List α)
  http : List (String × String) → FetchResult (JsonData α)

/-- The three JSON shapes `get_listings_by_asset` / `get_offers_by_asset`
serialize: the plain `{rateLimit, nextCursor, data}` envelope, the same
envelope tagged with a `fallback` field, and the plugin-path shape
`{data: {orders}}`. -/
inductive ToolOutput (α : Type) where
  | envelope (rateLimit : RateLimitInfo) (nextCursor : Option String) (data : JsonData α)
  | envelopeFallback (rateLimit : RateLimitInfo) (nextCursor : Option String)
      (data : JsonData α) (fallback : String)
  | pluginData (orders : List α)
deriving DecidableEq, Repr

/-- Whether the serialized output object carries a `rateLimit` key (read
off the three `JSON.stringify` shapes in the handlers). -/
def hasRateLimit {α : Type} : ToolOutput α → Bool
  | .pluginData _ => false
  | _ => true

/-- The collection-scoped fallback call shared by both asset tools:
re-query via `osFetch` and tag the envelope with the given `fallback`
value. -/
def collectionFallbackCall {α : Type} (env : AssetEnv α) (slug : String)
    (limit : Option Int) (cursor : Option String) (tag : String) : ToolOutput α :=
  let colResult := env.http (collectionQuery slug limit cursor)
  .envelopeFallback colResult.rateLimit (dataNext colResult.data) colResult.data tag

/-- The raw-HTTP path of the asset tools (mcp.ts lines 343-359):
asset-scoped query; when it returns an empty `orders` array and the
caller opted into the fallback with a truthy slug, re-issue against the
collection scope; otherwise return the plain envelope. -/
def assetHttpPath {α : Type} (env : AssetEnv α) (tag : String) (ca tid : String)
    (slug : Option String) (fb : Bool) (limit : Option Int) (cursor : Option String) :
    ToolOutput α :=
  let result := env.http (assetQuery ca tid limit cursor)
  if ordersEmpty result.data.orders && fb && slugTruthy slug then
    collectionFallbackCall env (slug.getD "") limit cursor tag
  else
    .envelope result.rateLimit (dataNext result.data) result.data

/-- The common handler body of `get_listings_by_asset` (tag
`collection_listings`, mcp.ts lines 320-359) and `get_offers_by_asset`
(tag `collection_offers`, lines 416-454), taking the effective argument
values computed at lines 313-318: try the plugin path; on an empty
plugin result with the fallback opted in and a truthy slug, fall back to
the collection scope; on a plugin error or an unresolved plugin, use the
raw HTTP path. -/
def assetOrdersHandler {α : Type} (env : AssetEnv α) (tag : String) (ca tid : String)
    (slug : Option String) (fb : Bool) (limit : Option Int) (cursor : Option String) :
    ToolOutput α :=
  if env.pluginResolved then
    match env.pluginOrders ⟨ca, .str tid, 42161⟩ with
    | some orders =>
      if orders.isEmpty && fb && slugTruthy slug then
        collectionFallbackCall env (slug.getD "") limit cursor tag
      else .pluginData orders
    | none => assetHttpPath env tag ca tid slug fb limit cursor
  else assetHttpPath env tag ca tid slug fb limit cursor

/-- The `get_listings_by_asset` tool on its effective arguments. -/
def get_listings_by_asset {α : Type} (env : AssetEnv α) (ca tid : String)
    (slug : Option String) (fb : Bool) (limit : Option Int) (cursor : Option String) :
    ToolOutput α :=
  assetOrdersHandler env "collection_listings" ca tid slug fb limit cursor

/-- The `get_offers_by_asset` tool on its effective arguments. -/
def get_offers_by_asset {α : Type} (env : AssetEnv α) (ca tid : String)
    (slug : Option String) (fb : Bool) (limit : Option Int) (cursor : Option String) :
    ToolOutput α :=
  assetOrdersHandler env "collection_offers" ca tid slug fb limit cursor

/-- The `get_listings_by_collection` handler (mcp.ts lines 253-264) on
its effective arguments: collection-scoped query, plain envelope. -/
def get_listings_by_collection {α : Type}
    (http : List (String × String) → FetchResult (JsonData α))
    (slug : String) (limit : Option Int) (cursor : Option String) : Envelope α :=
  let r := http (collectionQuery slug limit cursor)
  ⟨r.rateLimit, dataNext r.data, r.data⟩

/-- Does the list start with a 3-digit status-like token beginning with
4 or 5?  (The classification the spec claims, stated in its words.) -/
def begStatusToken : List Char → Bool
  | c1 :: c2 :: c3 :: _ => (c1 == '4' || c1 == '5') && c2.isDigit && c3.isDigit
  | _ => false

/-- Does a 3-digit status-like token beginning with 4 or 5 occur
anywhere in the list? -/
def hasStatusToken : List Char → Bool
  | [] => false
  | c :: cs => begStatusToken (c :: cs) || hasStatusToken cs

/-- The retryable classification as the spec words it: the message
matches rate/timeout/network case-insensitively or contains a 3-digit
status-like token beginning with 4 or 5. -/
def claimTransient (msg : String) : Bool :=
  let l := lowerList msg.toList
  containsSub ("rate".toList) l || containsSub ("timeout".toList) l ||
    containsSub ("network".toList) l || hasStatusToken l

/-- One step of the reference computation of the value the loop leaves
under a key: a defined value for the key overwrites, anything else keeps
the accumulator. -/
def lastDefinedStep (k : String) (acc : Option String) (kv : String × QueryValue) :
    Option String :=
  if kv.1 = k then
    match qString kv.2 with
    | some s => some s
    | none => acc
  else acc

/-- The value the query-building loop leaves under a key: the last
defined value written for it, `none` when every entry for the key is
undefined (or the key never occurs). -/
def lastDefined (params : List (String × QueryValue)) (k : String) : Option String :=
  params.foldl (lastDefinedStep k) none

/-- The spec's clause that no key is ever serialized with the literal
string `undefined` as its value. -/
def neverUndefinedLiteral (out : List (String × String)) : Bool :=
  out.all fun kv => kv.2 != "undefined"

/-- A concrete collaborator environment on which the plugin path of
`get_listings_by_asset` yields a non-empty order list. -/
def pluginHitEnv : AssetEnv Nat :=
  { pluginResolved := true
  , pluginOrders := fun _ => some [7]
  , http := fun _ => ⟨{ rest := 0 }, ⟨none, none, none⟩⟩ }

/-- A concrete wallet-tool oracle used to exercise the handler. -/
def walletHttpStub : WalletFetchReq → FetchResult (JsonData Nat) :=
  fun _ => ⟨{ rest := 0 }, ⟨none, none, none⟩⟩

/-- A retryable HTTP status as the spec describes it: 429 or any 5xx. -/
def retryableStatus (s : Nat) : Prop := s = 429 ∨ (500 ≤ s ∧ s < 600)

/-- Wallet-tool arguments whose only supplied alias fails the address
pattern. -/
def badWalletArgs : WalletArgs := { address := .str "0xNOTANADDRESS" }

/-- A concrete collaborator environment whose plugin path yields an
empty order list, while the collection-scoped HTTP query answers with a
cursor and a rate limit. -/
def pluginEmptyEnv : AssetEnv Nat :=
  { pluginResolved := true
  , pluginOrders := fun _ => some []
  , http := fun q => ⟨{ next := some "cur1", rest := q.length }, ⟨some "40", some "39", none⟩⟩ }



/-- A match of the literal pattern at the head survives appending on the right. -/
theorem begWith_append {pat xs : List Char} (h : begWith pat xs = true) (ys : List Char) :
    begWith pat (xs ++ ys) = true := by
  induction pat generalizing xs with
  | nil => rfl
  | cons p ps ih =>
    cases xs with
    | nil => simp [begWith] at h
    | cons c cs =>
      simp only [begWith, Bool.and_eq_true] at h ⊢
      exact ⟨h.1, ih h.2⟩

/-- A substring match survives appending on the right. -/
theorem containsSub_append_right {pat xs : List Char} (h : containsSub pat xs = true)
    (ys : List Char) : containsSub pat (xs ++ ys) = true := by
  induction xs with
  | nil =>
    simp only [containsSub] at h
    cases ys with
    | nil => simpa [containsSub] using h
    | cons c cs =>
      simp only [List.nil_append, containsSub, Bool.or_eq_true]
      exact Or.inl (begWith_append h _)
  | cons c cs ih =>
    simp only [containsSub, Bool.or_eq_true] at h
    simp only [List.cons_append, containsSub, Bool.or_eq_true]
    rcases h with h | h
    · exact Or.inl (by simpa using begWith_append h ys)
    · exact Or.inr (ih h)

/-- A substring match survives prepending on the left. -/
theorem containsSub_append_left {pat ys : List Char} (h : containsSub pat ys = true)
    (xs : List Char) : containsSub pat (xs ++ ys) = true := by
  induction xs with
  | nil => simpa using h
  | cons c cs ih =>
    simp only [List.cons_append, containsSub, Bool.or_eq_true]
    exact Or.inr ih

/-- A head match of the 5-and-two-digits fragment survives appending. -/
theorem begFiveDD_append {xs : List Char} (h : begFiveDD xs = true) (ys : List Char) :
    begFiveDD (xs ++ ys) = true := by
  match xs with
  | c1 :: c2 :: c3 :: rest => simpa [begFiveDD] using h
  | [] => simp [begFiveDD] at h
  | [c1] => simp [begFiveDD] at h
  | [c1, c2] => simp [begFiveDD] at h

/-- A 5-and-two-digits match survives appending on the right. -/
theorem hasFiveDD_append_right {xs : List Char} (h : hasFiveDD xs = true) (ys : List Char) :
    hasFiveDD (xs ++ ys) = true := by
  induction xs with
  | nil => simp [hasFiveDD] at h
  | cons c cs ih =>
    simp only [hasFiveDD, Bool.or_eq_true] at h
    simp only [List.cons_append, hasFiveDD, Bool.or_eq_true]
    rcases h with h | h
    · exact Or.inl (by simpa using begFiveDD_append h ys)
    · exact Or.inr (ih h)

/-- A 5-and-two-digits match survives prepending on the left. -/
theorem hasFiveDD_append_left {ys : List Char} (h : hasFiveDD ys = true) (xs : List Char) :
    hasFiveDD (xs ++ ys) = true := by
  induction xs with
  | nil => simpa using h
  | cons c cs ih =>
    simp only [List.cons_append, hasFiveDD, Bool.or_eq_true]
    exact Or.inr ih


/-- The head matcher finds the pattern exactly when it is a prefix. -/
theorem begWith_iff (pat l : List Char) :
    begWith pat l = true ↔ ∃ v, pat ++ v = l := by
  induction pat generalizing l with
  | nil => simp [begWith]
  | cons p ps ih =>
    cases l with
    | nil =>
      simp only [begWith]
      constructor
      · intro h; cases h
      · rintro ⟨v, hv⟩; cases hv
    | cons c cs =>
      simp only [begWith, Bool.and_eq_true, beq_iff_eq, ih, List.cons_append, List.cons.injEq]
      constructor
      · rintro ⟨rfl, v, rfl⟩; exact ⟨v, rfl, rfl⟩
      · rintro ⟨v, rfl, rfl⟩; exact ⟨rfl, v, rfl⟩

/-- The scanner finds the pattern exactly when the list splits around it. -/
theorem containsSub_iff (pat l : List Char) :
    containsSub pat l = true ↔ ∃ u v, u ++ pat ++ v = l := by
  induction l with
  | nil =>
    simp only [containsSub, begWith_iff]
    constructor
    · rintro ⟨v, hv⟩; exact ⟨[], v, hv⟩
    · rintro ⟨u, v, huv⟩
      rcases List.append_eq_nil.mp (List.append_eq_nil.mp huv).1 with ⟨rfl, rfl⟩
      exact ⟨v, huv⟩
  | cons c cs ih =>
    simp only [containsSub, Bool.or_eq_true, begWith_iff, ih]
    constructor
    · rintro (⟨v, hv⟩ | ⟨u, v, huv⟩)
      · exact ⟨[], v, hv⟩
      · exact ⟨c :: u, v, by simp [huv]⟩
    · rintro ⟨u, v, huv⟩
      cases u with
      | nil => exact Or.inl ⟨v, by simpa using huv⟩
      | cons x xs =>
        simp only [List.cons_append, List.cons.injEq] at huv
        exact Or.inr ⟨xs, v, huv.2⟩

/-- The head matcher of the 5-and-two-digits fragment, characterized. -/
theorem begFiveDD_iff (l : List Char) :
    begFiveDD l = true ↔ ∃ a b t, a.isDigit = true ∧ b.isDigit = true ∧ l = '5' :: a :: b :: t := by
  match l with
  | [] => simp [begFiveDD]
  | [c1] => simp [begFiveDD]
  | [c1, c2] => simp [begFiveDD]
  | c1 :: c2 :: c3 :: rest =>
    simp only [begFiveDD, Bool.and_eq_true, beq_iff_eq]
    constructor
    · rintro ⟨⟨rfl, h2⟩, h3⟩; exact ⟨c2, c3, rest, h2, h3, rfl⟩
    · rintro ⟨a, b, t, ha, hb, heq⟩
      cases heq
      exact ⟨⟨rfl, ha⟩, hb⟩

/-- The 5-and-two-digits scanner finds a match exactly when the list splits around one. -/
theorem hasFiveDD_iff (l : List Char) :
    hasFiveDD l = true ↔
      ∃ u a b v, a.isDigit = true ∧ b.isDigit = true ∧ u ++ ('5' :: a :: b :: []) ++ v = l := by
  induction l with
  | nil =>
    simp only [hasFiveDD]
    constructor
    · intro h; cases h
    · rintro ⟨u, a, b, v, _, _, huv⟩
      cases u <;> simp at huv
  | cons c cs ih =>
    simp only [hasFiveDD, Bool.or_eq_true, begFiveDD_iff, ih]
    constructor
    · rintro (⟨a, b, t, ha, hb, heq⟩ | ⟨u, a, b, v, ha, hb, huv⟩)
      · exact ⟨[], a, b, t, ha, hb, by simp [heq]⟩
      · exact ⟨c :: u, a, b, v, ha, hb, by simp [huv]⟩
    · rintro ⟨u, a, b, v, ha, hb, huv⟩
      cases u with
      | nil =>
        simp only [List.nil_append, List.cons_append] at huv
        exact Or.inl ⟨a, b, v, ha, hb, huv.symm⟩
      | cons x xs =>
        simp only [List.cons_append, List.cons.injEq] at huv
        exact Or.inr ⟨xs, a, b, v, ha, hb, huv.2⟩

/-- C3 (amended): the failure classifier marks a thrown value retryable
exactly when it is an Error whose lower-cased message contains the
literal token 429, or the digit 5 followed by two digits, or one of
rate / timeout / network; every other thrown value, including every
non-Error, is terminal.  (The claim's reading that any 3-digit token
beginning with 4 is matched is refuted separately.) -/
theorem isRateLimitOrTransient_characterization (e : JsThrown) :
    isRateLimitOrTransient e = true ↔
      ∃ msg, e = .error msg ∧
        ((∃ u v, u ++ "429".toList ++ v = lowerList msg.toList) ∨
         (∃ u a b v, a.isDigit = true ∧ b.isDigit = true ∧
            u ++ ('5' :: a :: b :: []) ++ v = lowerList msg.toList) ∨
         (∃ u v, u ++ "rate".toList ++ v = lowerList msg.toList) ∨
         (∃ u v, u ++ "timeout".toList ++ v = lowerList msg.toList) ∨
         (∃ u v, u ++ "network".toList ++ v = lowerList msg.toList)) := by
  cases e with
  | nonError =>
    simp [isRateLimitOrTransient]
  | error m =>
    simp only [isRateLimitOrTransient, transientMessage, Bool.or_eq_true,
      containsSub_iff, hasFiveDD_iff, JsThrown.error.injEq]
    constructor
    · intro h
      exact ⟨m, rfl, by simpa [or_assoc] using h⟩
    · rintro ⟨msg, rfl, h⟩
      simpa [or_assoc] using h

/-- C3 counterexample: the message `HTTP 404 Not Found` contains a
3-digit status-like token beginning with 4, which the claim calls
retryable, yet the classifier returns false for it. -/
theorem isRateLimitOrTransient_claim_counterexample :
    isRateLimitOrTransient (.error "HTTP 404 Not Found") = false ∧
      claimTransient "HTTP 404 Not Found" = true := by decide


/-- Lower-casing distributes over append. -/
theorem lowerList_append (xs ys : List Char) :
    lowerList (xs ++ ys) = lowerList xs ++ lowerList ys :=
  List.map_append _ xs ys

/-- The characters of the built error message, split at its pieces. -/
theorem apiErrorMsg_toList (s : Nat) (b : String) :
    (apiErrorMsg s b).toList =
      ("OpenSea API error ").toList ++ ((toString s).toList ++ ((": ").toList ++ b.toList)) := by
  simp [apiErrorMsg, String.toList, String.data_append, List.append_assoc]

set_option maxRecDepth 4000 in
/-- Every status in 500..599 prints as 5 followed by two digits, so the regex matches it. -/
theorem fiveDD_of_5xx : ∀ s, s < 600 → 500 ≤ s →
    hasFiveDD (lowerList (toString s).toList) = true := by decide

/-- The error message built for a retryable status always matches the classifier regex. -/
theorem transientMessage_apiErrorMsg {s : Nat} (b : String) (h : retryableStatus s) :
    transientMessage (apiErrorMsg s b) = true := by
  simp only [transientMessage, apiErrorMsg_toList, lowerList_append, Bool.or_eq_true]
  rcases h with rfl | ⟨h1, h2⟩
  · refine Or.inl (Or.inl (Or.inl (Or.inl ?_)))
    refine containsSub_append_left ?_ _
    refine containsSub_append_right ?_ _
    decide
  · refine Or.inl (Or.inl (Or.inl (Or.inr ?_)))
    refine hasFiveDD_append_left ?_ _
    refine hasFiveDD_append_right ?_ _
    exact fiveDD_of_5xx s h2 h1

/-- A retryable status is never a success status. -/
theorem resOk_false_of_retryable {s : Nat} (h : retryableStatus s) : resOk s = false := by
  rcases h with rfl | ⟨h1, _⟩
  · rfl
  · simp only [resOk, Bool.and_eq_false_iff, decide_eq_false_iff_not, not_lt]
    right
    omega

/-- One attempt answering with a retryable status (429 or 5xx) throws a
plain error that the classifier accepts, so p-retry retries it. -/
theorem osAttempt_retryable {δ : Type} {s : Nat} (b : String) (hs : List (String × String))
    (p : δ) (h : retryableStatus s) :
    osAttempt (SimAttempt.response s b hs p) = .retryable (apiErrorMsg s b) := by
  have hguard : s = 429 ∨ 500 ≤ s := by
    rcases h with rfl | ⟨h1, _⟩
    · exact Or.inl rfl
    · exact Or.inr h1
  simp [osAttempt, resOk_false_of_retryable h, hguard, isRateLimitOrTransient,
    transientMessage_apiErrorMsg b h]

/-- C1: when all five scripted responses carry a retryable status (429
or any 5xx), `osFetch` issues exactly 5 HTTP requests (1 initial + 4
retries, the `retries: 4` budget), stops even if more responses are
scripted, and fails with the last attempt's error message. -/
theorem osFetch_retryable_exhaustion {δ : Type} (s1 s2 s3 s4 s5 : Nat)
    (b1 b2 b3 b4 b5 : String) (h1 h2 h3 h4 h5 : List (String × String))
    (p1 p2 p3 p4 p5 : δ) (rest : List (SimAttempt δ))
    (H1 : retryableStatus s1) (H2 : retryableStatus s2) (H3 : retryableStatus s3)
    (H4 : retryableStatus s4) (H5 : retryableStatus s5) :
    osFetchRun
      ([SimAttempt.response s1 b1 h1 p1, SimAttempt.response s2 b2 h2 p2,
        SimAttempt.response s3 b3 h3 p3, SimAttempt.response s4 b4 h4 p4,
        SimAttempt.response s5 b5 h5 p5] ++ rest) =
      (5, .failed (apiErrorMsg s5 b5)) := by
  simp [osFetchRun, pRetryRun, osAttempt_retryable b1 h1 p1 H1,
    osAttempt_retryable b2 h2 p2 H2, osAttempt_retryable b3 h3 p3 H3,
    osAttempt_retryable b4 h4 p4 H4, osAttempt_retryable b5 h5 p5 H5]

/-- C1 witness: five consecutive 500 responses give exactly 5 requests
and a failure carrying the fifth error. -/
theorem osFetch_retryable_exhaustion_witness :
    osFetchRun
      ([SimAttempt.response 500 "e1" [] (0 : Nat), SimAttempt.response 500 "e2" [] 0,
        SimAttempt.response 500 "e3" [] 0, SimAttempt.response 500 "e4" [] 0,
        SimAttempt.response 500 "e5" [] 0] ++ []) =
      (5, .failed (apiErrorMsg 500 "e5")) :=
  osFetch_retryable_exhaustion 500 500 500 500 500 "e1" "e2" "e3" "e4" "e5"
    [] [] [] [] [] 0 0 0 0 0 []
    (by right; omega) (by right; omega) (by right; omega) (by right; omega) (by right; omega)

/-- C2: a non-success status other than 429 and below 500 makes
`osFetch` issue exactly 1 request and fail immediately with the error
carrying the status code and the response body text; moreover only a
429-or-at-least-500 status can ever produce a retryable attempt. -/
theorem osFetch_terminal_4xx {δ : Type} (s : Nat) (b : String)
    (hs : List (String × String)) (p : δ) (rest : List (SimAttempt δ))
    (Hok : resOk s = false) (H1 : s ≠ 429) (H2 : s < 500) :
    osFetchRun (SimAttempt.response s b hs p :: rest) = (1, .failed (apiErrorMsg s b)) ∧
      ∀ (s' : Nat) (b' : String) (hs' : List (String × String)) (p' : δ) (m : String),
        osAttempt (SimAttempt.response s' b' hs' p') = .retryable m → s' = 429 ∨ 500 ≤ s' := by
  have hguard : ¬(s = 429 ∨ 500 ≤ s) := by
    push_neg
    exact ⟨H1, by omega⟩
  constructor
  · simp [osFetchRun, pRetryRun, osAttempt, Hok, hguard]
  · intro s' b' hs' p' m hm
    by_contra hc
    rcases hok' : resOk s' with _ | _ <;> simp [osAttempt, hok', hc] at hm

/-- C2 witness: a single 404 response fails after exactly one request. -/
theorem osFetch_terminal_4xx_witness :
    osFetchRun [SimAttempt.response 404 "missing" [] (0 : Nat)] =
      (1, .failed (apiErrorMsg 404 "missing")) :=
  (osFetch_terminal_4xx 404 "missing" [] 0 [] (by decide) (by decide) (by decide)).1


/-- Setting a key makes it resolve to the new value. -/
theorem mapGet_mapSet_self {β : Type} (m : List (String × β)) (k : String) (v : β) :
    mapGet (mapSet m k v) k = some v := by
  induction m with
  | nil => simp [mapSet, mapGet]
  | cons kv rest ih =>
    obtain ⟨k', v'⟩ := kv
    by_cases h : k' = k
    · simp [mapSet, h, mapGet]
    · simp [mapSet, h, mapGet, ih]

/-- Setting one key leaves lookups of other keys unchanged. -/
theorem mapGet_mapSet_ne {β : Type} (m : List (String × β)) {k k' : String} (v : β)
    (h : k' ≠ k) : mapGet (mapSet m k' v) k = mapGet m k := by
  induction m with
  | nil => simp [mapSet, mapGet, h]
  | cons kv rest ih =>
    obtain ⟨a, b⟩ := kv
    by_cases ha : a = k'
    · simp [mapSet, ha, mapGet, h]
    · simp only [mapSet, ha, if_false, mapGet]
      by_cases hak : a = k
      · simp [hak]
      · simp [hak, ih]

/-- Setting introduces no key other than the one set. -/
theorem mem_mapKeys_mapSet {β : Type} {m : List (String × β)} {k a : String} {v : β}
    (h : a ∈ mapKeys (mapSet m k v)) : a = k ∨ a ∈ mapKeys m := by
  induction m with
  | nil => simpa [mapSet, mapKeys] using h
  | cons kv rest ih =>
    obtain ⟨k', v'⟩ := kv
    by_cases hk : k' = k
    · simp only [mapSet, hk, if_true, mapKeys, List.map_cons, List.mem_cons] at h ⊢
      tauto
    · simp only [mapSet, hk, if_false, mapKeys, List.map_cons, List.mem_cons] at h ⊢
      rcases h with h | h
      · tauto
      · rcases ih h with h' | h' <;> tauto

/-- Set-in-place-or-append keeps the keys free of duplicates. -/
theorem nodup_mapKeys_mapSet {β : Type} {m : List (String × β)} (k : String) (v : β)
    (h : (mapKeys m).Nodup) : (mapKeys (mapSet m k v)).Nodup := by
  induction m with
  | nil => simp [mapSet, mapKeys]
  | cons kv rest ih =>
    obtain ⟨k', v'⟩ := kv
    simp only [mapKeys, List.map_cons, List.nodup_cons] at h
    by_cases hk : k' = k
    · subst hk
      simpa [mapSet, mapKeys, List.nodup_cons] using h
    · simp only [mapSet, hk, if_false, mapKeys, List.map_cons, List.nodup_cons]
      refine ⟨fun hmem => ?_, ih h.2⟩
      rcases mem_mapKeys_mapSet hmem with h' | h'
      · exact hk h'
      · exact h.1 h'

/-- Any sequence of registrations keeps the registry keys free of duplicates. -/
theorem nodup_mapKeys_register_foldl {π : Type} (ps : List (NftPluginEntry π))
    (acc : RegistryState π) (h : (mapKeys acc).Nodup) :
    (mapKeys (ps.foldl registerNftPlugin acc)).Nodup := by
  induction ps generalizing acc with
  | nil => simpa using h
  | cons p rest ih =>
    simp only [List.foldl_cons]
    exact ih _ (nodup_mapKeys_mapSet _ _ h)

/-- C5: after any registration history, registering two entries under
the same id in sequence leaves the second one resolvable under that id
(last writer wins), and the registry still holds at most one entry per
id (its key list has no duplicates). -/
theorem registry_last_writer_wins {π : Type} (ps : List (NftPluginEntry π))
    (p q : NftPluginEntry π) (h : q.id = p.id) :
    getNftPlugin (registerNftPlugin (registerNftPlugin (buildRegistry ps) p) q) p.id = some q ∧
      (mapKeys (registerNftPlugin (registerNftPlugin (buildRegistry ps) p) q)).Nodup := by
  constructor
  · unfold getNftPlugin registerNftPlugin
    rw [h]
    exact mapGet_mapSet_self _ _ _
  · exact nodup_mapKeys_mapSet _ _
      (nodup_mapKeys_mapSet _ _
        (nodup_mapKeys_register_foldl ps []
          (by simp [mapKeys])))

/-- C5 witness: two concrete implementations registered under the id
opensea resolve to the second. -/
theorem registry_last_writer_wins_witness :
    getNftPlugin
        (registerNftPlugin (registerNftPlugin (buildRegistry ([] : List (NftPluginEntry String)))
          ⟨"opensea", "implA"⟩) ⟨"opensea", "implB"⟩) "opensea" =
      some ⟨"opensea", "implB"⟩ :=
  (registry_last_writer_wins [] ⟨"opensea", "implA"⟩ ⟨"opensea", "implB"⟩ rfl).1

/-- One loop iteration changes a key's lookup exactly as the reference step does. -/
theorem mapGet_buildQueryStep (acc : List (String × String)) (kv : String × QueryValue)
    (k : String) :
    mapGet (buildQueryStep acc kv) k = lastDefinedStep k (mapGet acc k) kv := by
  obtain ⟨k', v⟩ := kv
  simp only [buildQueryStep, lastDefinedStep]
  by_cases hk : k' = k
  · subst hk
    cases hv : qString v with
    | none => simp
    | some s => simp [mapGet_mapSet_self]
  · cases hv : qString v with
    | none => simp [hk]
    | some s => simp [hk, mapGet_mapSet_ne _ _ hk]

/-- The loop's effect on one key, generalized over the accumulator. -/
theorem mapGet_buildQuery_go (params : List (String × QueryValue))
    (acc : List (String × String)) (k : String) :
    mapGet (params.foldl buildQueryStep acc) k =
      params.foldl (lastDefinedStep k) (mapGet acc k) := by
  induction params generalizing acc with
  | nil => rfl
  | cons kv rest ih =>
    simp only [List.foldl_cons]
    rw [ih, mapGet_buildQueryStep]

/-- The query-building loop keeps the query keys free of duplicates. -/
theorem nodup_mapKeys_buildQuery_go (params : List (String × QueryValue))
    (acc : List (String × String)) (h : (mapKeys acc).Nodup) :
    (mapKeys (params.foldl buildQueryStep acc)).Nodup := by
  induction params generalizing acc with
  | nil => simpa using h
  | cons kv rest ih =>
    simp only [List.foldl_cons]
    refine ih _ ?_
    simp only [buildQueryStep]
    cases qString kv.2 with
    | none => exact h
    | some s => exact nodup_mapKeys_mapSet _ _ h

/-- A lookup misses exactly when the key is absent from the key list. -/
theorem mapGet_eq_none_iff {β : Type} (m : List (String × β)) (k : String) :
    mapGet m k = none ↔ k ∉ mapKeys m := by
  induction m with
  | nil => simp [mapGet, mapKeys]
  | cons kv rest ih =>
    obtain ⟨k', v⟩ := kv
    by_cases hk : k' = k
    · simp [mapGet, hk, mapKeys]
    · simp [mapGet, hk, mapKeys, ih, Ne.symm hk]

/-- C9 (amended): the outgoing query resolves every key to the last
defined value supplied for it - in particular a key whose values are all
undefined is absent, a defined value appears stringified, and the
undefined value itself is never serialized; the query holds each key at
most once, and a missing lookup coincides with the key's absence.  (The
claim's clause that the literal string undefined never appears as a
value fails when the caller passes that very string, refuted
separately.) -/
theorem buildQuery_omits_undefined :
    (∀ (params : List (String × QueryValue)) (k : String),
        mapGet (buildQuery params) k = lastDefined params k) ∧
      (∀ params : List (String × QueryValue), (mapKeys (buildQuery params)).Nodup) ∧
      (∀ (params : List (String × QueryValue)) (k : String),
        mapGet (buildQuery params) k = none ↔ k ∉ mapKeys (buildQuery params)) := by
  refine ⟨fun params k => ?_, fun params => ?_, fun params k => ?_⟩
  · rw [buildQuery, lastDefined, mapGet_buildQuery_go]
    rfl
  · exact nodup_mapKeys_buildQuery_go params [] (by simp [mapKeys])
  · exact mapGet_eq_none_iff _ _

/-- C9 counterexample: a caller-supplied string value `undefined` is
serialized verbatim, so the claim's clause that no key is ever
serialized with the literal string `undefined` fails; the undefined
value itself, by contrast, is omitted. -/
theorem buildQuery_undefined_literal_counterexample :
    buildQuery [("limit", QueryValue.str "undefined")] = [("limit", "undefined")] ∧
      neverUndefinedLiteral (buildQuery [("limit", QueryValue.str "undefined")]) = false ∧
      buildQuery [("limit", QueryValue.undef)] = [] := by
  refine ⟨rfl, ?_, rfl⟩
  decide

/-- C4: when the opensea plugin resolves, its getListings returns the
empty sequence, the caller opted into the fallback and supplied a
non-empty collection slug, the tool re-issues the collection-scoped
query through the fetch client and returns its result tagged
`collection_listings`, not the empty plugin result. -/
theorem get_listings_by_asset_fallback {α : Type} (env : AssetEnv α) (ca tid s : String)
    (limit : Option Int) (cursor : Option String)
    (Hres : env.pluginResolved = true)
    (Hempty : env.pluginOrders ⟨ca, .str tid, 42161⟩ = some [])
    (Hslug : s ≠ "") :
    get_listings_by_asset env ca tid (some s) true limit cursor =
      .envelopeFallback (env.http (collectionQuery s limit cursor)).rateLimit
        (dataNext (env.http (collectionQuery s limit cursor)).data)
        (env.http (collectionQuery s limit cursor)).data "collection_listings" := by
  have hlen : slugTruthy (some s) = true := by
    obtain ⟨data⟩ := s
    cases data with
    | nil => exact absurd rfl Hslug
    | cons c cs =>
      simp [slugTruthy, String.length]
  simp [get_listings_by_asset, assetOrdersHandler, Hres, Hempty, hlen, collectionFallbackCall]

/-- C4 witness: a concrete environment with an empty plugin result and
fallback opted in yields the tagged collection-scoped result. -/
theorem get_listings_by_asset_fallback_witness :
    get_listings_by_asset pluginEmptyEnv "0xe6" "13" (some "blue") true none none =
      .envelopeFallback ⟨some "40", some "39", none⟩ (some "cur1")
        { next := some "cur1", rest := 1 } "collection_listings" :=
  (get_listings_by_asset_fallback pluginEmptyEnv "0xe6" "13" "blue" none none rfl rfl
    (by decide)).trans rfl

/-- Every asset-tool output is the plugin-data shape or carries a rateLimit key. -/
theorem toolOutput_shape {α : Type} (o : ToolOutput α) :
    (∃ os, o = .pluginData os) ∨ hasRateLimit o = true := by
  cases o with
  | pluginData os => exact Or.inl ⟨os, rfl⟩
  | envelope a b c => exact Or.inr rfl
  | envelopeFallback a b c d => exact Or.inr rfl

/-- Both branches of the raw-HTTP path carry a rateLimit key. -/
theorem hasRateLimit_assetHttpPath {α : Type} (env : AssetEnv α) (tag ca tid : String)
    (slug : Option String) (fb : Bool) (limit : Option Int) (cursor : Option String) :
    hasRateLimit (assetHttpPath env tag ca tid slug fb limit cursor) = true := by
  simp only [assetHttpPath, collectionFallbackCall]
  split <;> rfl

/-- C6 (amended): every read tool's success envelope carries the
rateLimit field and equals the fetched rate-limit value - except the
plugin-backed non-fallback path of get_listings_by_asset and
get_offers_by_asset, whose output is the bare data-orders shape without
rateLimit; whenever the plugin is not resolved, the raw-HTTP path of
those two tools also always carries rateLimit. -/
theorem read_tools_rateLimit_presence :
    (∀ (α : Type) (env : AssetEnv α) (ca tid : String) (slug : Option String) (fb : Bool)
        (limit : Option Int) (cursor : Option String),
        (∃ os, get_listings_by_asset env ca tid slug fb limit cursor = .pluginData os) ∨
          hasRateLimit (get_listings_by_asset env ca tid slug fb limit cursor) = true) ∧
      (∀ (α : Type) (env : AssetEnv α) (ca tid : String) (slug : Option String) (fb : Bool)
        (limit : Option Int) (cursor : Option String),
        (∃ os, get_offers_by_asset env ca tid slug fb limit cursor = .pluginData os) ∨
          hasRateLimit (get_offers_by_asset env ca tid slug fb limit cursor) = true) ∧
      (∀ (α : Type) (env : AssetEnv α) (ca tid : String) (slug : Option String) (fb : Bool)
        (limit : Option Int) (cursor : Option String),
        env.pluginResolved = false →
          hasRateLimit (get_listings_by_asset env ca tid slug fb limit cursor) = true ∧
            hasRateLimit (get_offers_by_asset env ca tid slug fb limit cursor) = true) ∧
      (∀ (α : Type) (http : WalletFetchReq → FetchResult (JsonData α)) (a : WalletArgs),
        ((get_wallet_nfts http a).2).rateLimit = (http (get_wallet_nfts http a).1).rateLimit) ∧
      (∀ (α : Type) (http : String → FetchResult (JsonData α)) (slug : String),
        (get_collection http slug).rateLimit = (http slug).rateLimit) ∧
      (∀ (β : Type) (http : List (String × String) → FetchResult (CollectionsData β))
        (limit : Int) (cursor : Option String),
        (list_arbitrum_collections http limit cursor).rateLimit =
          (http (("limit", toString limit) ::
            (match cursor with | some c => [("next", c)] | none => []))).rateLimit) ∧
      (∀ (α : Type) (http : List (String × String) → FetchResult (JsonData α)) (slug : String)
        (limit : Option Int) (cursor : Option String),
        (get_listings_by_collection http slug limit cursor).rateLimit =
          (http (collectionQuery slug limit cursor)).rateLimit) := by
  refine ⟨fun α env ca tid slug fb limit cursor => toolOutput_shape _,
    fun α env ca tid slug fb limit cursor => toolOutput_shape _,
    fun α env ca tid slug fb limit cursor h => ?_,
    fun α http a => rfl, fun α http slug => rfl, fun β http limit cursor => rfl,
    fun α http slug limit cursor => rfl⟩
  constructor <;>
    simp [get_listings_by_asset, get_offers_by_asset, assetOrdersHandler, h,
      hasRateLimit_assetHttpPath]

/-- C6 counterexample: with the opensea plugin resolved and returning a
non-empty order list, get_listings_by_asset succeeds with the
data-orders shape, which carries no rateLimit field. -/
theorem read_tool_missing_rateLimit_counterexample :
    get_listings_by_asset pluginHitEnv "0xabc" "1" none false none none = .pluginData [7] ∧
      hasRateLimit (get_listings_by_asset pluginHitEnv "0xabc" "1" none false none none) =
        false := by
  constructor <;> rfl

/-- C7 (amended): when the wallet-tool arguments fail validation (for
example a malformed address), the handler does not reject: it swallows
the parse failure, substitutes the built-in default wallet, drops the
cursor, and still issues the network call, returning the success
envelope built from that response. -/
theorem wallet_parse_failure_fetches_default {α : Type}
    (http : WalletFetchReq → FetchResult (JsonData α)) (a : WalletArgs)
    (H : walletParseOk a = false) :
    get_wallet_nfts http a =
      (⟨DEFAULT_WALLET, []⟩,
        ⟨(http ⟨DEFAULT_WALLET, []⟩).rateLimit, dataNext (http ⟨DEFAULT_WALLET, []⟩).data,
          (http ⟨DEFAULT_WALLET, []⟩).data⟩) := by
  simp [get_wallet_nfts, H, buildQuery, buildQueryStep, qString]

/-- C7 counterexample: an address failing the 0x-plus-40-hex shape makes
validation fail, yet the handler still issues an HTTP request (to the
default wallet) and returns a success envelope, so the invocation is not
rejected before the network call. -/
theorem wallet_validation_not_rejected_counterexample :
    walletParseOk badWalletArgs = false ∧
      (get_wallet_nfts walletHttpStub badWalletArgs).1 = ⟨DEFAULT_WALLET, []⟩ ∧
      (get_wallet_nfts walletHttpStub badWalletArgs).2 =
        ⟨⟨none, none, none⟩, none, { rest := 0 }⟩ := by
  refine ⟨by decide, rfl, rfl⟩

/-- C7 witness: the amended behaviour evaluated on the malformed
arguments and a concrete oracle. -/
theorem wallet_parse_failure_fetches_default_witness :
    get_wallet_nfts walletHttpStub badWalletArgs =
      (⟨DEFAULT_WALLET, []⟩, ⟨⟨none, none, none⟩, none, { rest := 0 }⟩) :=
  (wallet_parse_failure_fetches_default walletHttpStub badWalletArgs (by decide)).trans rfl

/-- C8: each rate-limit field is the verbatim value of its response
header and null exactly when no header of that name (case-insensitively)
is present; with only x-ratelimit-remaining set, limit and reset are
null and remaining is the header value; and a successful attempt returns
the decoded payload together with exactly these extracted headers. -/
theorem extractRateLimit_verbatim_or_null :
    (∀ v : String, extractRateLimit [("x-ratelimit-remaining", v)] =
        ⟨none, some v, none⟩) ∧
      (∀ (hs : List (String × String)) (nm : String),
        headersGet hs nm = none ↔
          ∀ kv ∈ hs, lowerList kv.1.toList ≠ lowerList nm.toList) ∧
      (∀ hs : List (String × String),
        (extractRateLimit hs).limit = headersGet hs "x-ratelimit-limit" ∧
          (extractRateLimit hs).remaining = headersGet hs "x-ratelimit-remaining" ∧
          (extractRateLimit hs).reset = headersGet hs "x-ratelimit-reset") ∧
      (∀ (δ : Type) (s : Nat) (b : String) (hs : List (String × String)) (p : δ),
        resOk s = true →
          osAttempt (SimAttempt.response s b hs p) = .success ⟨p, extractRateLimit hs⟩) := by
  refine ⟨fun v => rfl, ?_, fun hs => ⟨rfl, rfl, rfl⟩,
    fun δ s b hs p h => by simp [osAttempt, h]⟩
  intro hs nm
  induction hs with
  | nil => simp [headersGet]
  | cons kv rest ih =>
    obtain ⟨k, v⟩ := kv
    simp only [String.toList] at ih ⊢
    by_cases hk : lowerList k.data = lowerList nm.data
    · simp [headersGet, String.toList, hk]
    · simp [headersGet, String.toList, hk, ih]

/-- C8 witness: a response carrying only x-ratelimit-remaining set to 7
extracts limit and reset as null and remaining as 7. -/
theorem extractRateLimit_verbatim_or_null_witness :
    extractRateLimit [("x-ratelimit-remaining", "7")] =
      ⟨none, some "7", none⟩ :=
  extractRateLimit_verbatim_or_null.1 "7"

/-- C10: the Magic Eden plugin is a pure stub: getListings and getOffers
return the empty sequence on every input, and getAsset echoes the
contract address, the token id normalized to a string and the chain id,
with tokenStandard ERC721 and every optional field absent - all without
any network call and without any failure path. -/
theorem magic_eden_stub (α : Type) (p : GetAssetParams) :
    magicEdenGetListings (α := α) p = [] ∧
      magicEdenGetOffers (α := α) p = [] ∧
      magicEdenGetAsset p =
        { contractAddress := p.contractAddress, tokenId := tokenIdString p.tokenId,
          tokenStandard := .ERC721, chainId := p.chainId } ∧
      (magicEdenGetAsset p).owner = none ∧
      (magicEdenGetAsset p).nftName = none ∧
      (magicEdenGetAsset p).description = none ∧
      (magicEdenGetAsset p).image = none ∧
      (magicEdenGetAsset p).isListed = none ∧
      (magicEdenGetAsset p).currentPrice = none ∧
      (magicEdenGetAsset p).collectionSlug = none ∧
      (magicEdenGetAsset p).collectionName = none ∧
      (magicEdenGetAsset p).collectionVerified = none ∧
      (∀ n : Int,
        (magicEdenGetAsset ⟨p.contractAddress, .num n, p.chainId⟩).tokenId = toString n) :=
  ⟨rfl, rfl, rfl, rfl, rfl, rfl, rfl, rfl, rfl, rfl, rfl, rfl, fun _ => rfl⟩

end VibekitNft
